import Mathlib

/-!
A verification development for the monitoring-assistant repository
(`main.py`, `prompt_handler/intent_parser.py`, `dynatrace_api/problems.py`,
`utils/timeframe.py`).

The Python sources are shallowly embedded: each Python function that the
claims touch is translated into an executable Lean definition over explicit
data.  Conventions used throughout:

* Python strings are Lean `String`s; `str.lower()` / `str.upper()` /
  `str.strip()` are modelled by `pyLower` / `pyUpper` / `pyStrip`, which act
  on the underlying character list (ASCII case folding, which covers every
  string the sources manipulate).
* Python `a in b` on strings (contiguous substring test) is `strContains`.
* `datetime` instants are integers counting minutes; `timedelta(minutes|
  hours|days|weeks = v)` is `v * unitMinutes u` minutes, which is exact
  because every unit the code accepts is a whole number of minutes.
* Python's `re` is modelled by explicit left-to-right scanners: `re.search`
  tries every start position from the left, and for the concrete patterns in
  the sources greedy matching never needs to backtrack (each character class
  is disjoint from the one that follows it), so maximal-munch scanning is
  exact.  `\b` boundaries use the ASCII word-character class.
* JSON dictionaries coming from the monitoring backend are structures whose
  fields are the keys the code reads; `dict.get(k, default)` on a possibly
  missing key becomes an `Option` (or the default value directly when the
  code always supplies one).  The extra payload entries of a problem record
  that the code never reads are collapsed into one inert `otherFields`
  string so that frame properties are expressible.
-/

/-! ## String utilities (models of Python `str` primitives) -/

/-- Characters removed by Python `str.strip()` (ASCII whitespace). -/
def isPySpace (c : Char) : Bool :=
  c == ' ' || c == '\t' || c == '\n' || c == '\r' || c == '\x0b' || c == '\x0c'

/-- Python `str.strip()`. -/
def pyStrip (s : String) : String :=
  ⟨((s.data.dropWhile isPySpace).reverse.dropWhile isPySpace).reverse⟩

/-- ASCII case folding of one character, as Python `str.lower()` does it. -/
def pyLowerChar (c : Char) : Char :=
  if 'A' ≤ c ∧ c ≤ 'Z' then Char.ofNat (c.toNat + 32) else c

/-- ASCII upper-casing of one character, as Python `str.upper()` does it. -/
def pyUpperChar (c : Char) : Char :=
  if 'a' ≤ c ∧ c ≤ 'z' then Char.ofNat (c.toNat - 32) else c

/-- Python `str.lower()`. -/
def pyLower (s : String) : String := ⟨s.data.map pyLowerChar⟩

/-- Python `str.upper()`. -/
def pyUpper (s : String) : String := ⟨s.data.map pyUpperChar⟩

/-- Contiguous-sublist test on character lists: `listContainsSub hay needle`
is Python's `needle in hay`. -/
def listContainsSub : List Char → List Char → Bool
  | [], needle => needle.isEmpty
  | c :: t, needle => List.isPrefixOf needle (c :: t) || listContainsSub t needle

/-- Python `needle in hay` for strings. -/
def strContains (hay needle : String) : Bool :=
  listContainsSub hay.data needle.data

/-- Value of a decimal digit string, as Python `int()` computes it. -/
def digitsToNat (ds : List Char) : Nat :=
  ds.foldl (fun acc c => acc * 10 + (c.toNat - 48)) 0

/-- Decimal digits of `n` (auxiliary, fuel-driven so that it reduces). -/
def natToDigits : Nat → Nat → List Char
  | 0, _ => []
  | fuel + 1, n =>
    if n < 10 then [Char.ofNat (48 + n)]
    else natToDigits fuel (n / 10) ++ [Char.ofNat (48 + n % 10)]

/-- Decimal rendering of a natural number, as Python `str()` / an f-string
renders a nonnegative `int`. -/
def natRepr (n : Nat) : String := ⟨natToDigits (n + 1) n⟩

/-- The timeframe unit letters accepted by the `[mhdw]` character class. -/
def isUnitChar (c : Char) : Bool :=
  c == 'm' || c == 'h' || c == 'd' || c == 'w'

/-- ASCII word characters, the `\w` class used by `\b` boundaries. -/
def isWordChar (c : Char) : Bool :=
  c.isAlphanum || c == '_'

/-! ## `utils/timeframe.py` -/

/-- Matching of `^(\d+)([mhdw])$` against an already lower-cased character
list, presented in reverse (unit letter first).  Auxiliary to
`matchTimeframe`. -/
def matchNumUnitRev : List Char → Option (Nat × Char)
  | [] => none
  | u :: rest =>
    if isUnitChar u && !rest.isEmpty && rest.all Char.isDigit then
      some (digitsToNat rest.reverse, u)
    else none

/-- Model of `re.match(r'^(\d+)([mhdw])$', timeframe.lower())`: the number/unit
groups when the whole string matches, `none` otherwise. -/
def matchTimeframe (s : String) : Option (Nat × Char) :=
  matchNumUnitRev (pyLower s).data.reverse

/-- Minutes in one unit: the `unit_mapping` table of `parse_timeframe`
translated into the minutes-based instant model
(`timedelta(minutes=1) = 1`, `hours=1` → 60, `days=1` → 1440,
`weeks=1` → 10080). -/
def unitMinutes (u : Char) : Nat :=
  if u == 'm' then 1
  else if u == 'h' then 60
  else if u == 'd' then 1440
  else 10080

/-- Model of `parse_timeframe` from `utils/timeframe.py`.  `now` is the current
instant (`datetime.utcnow()`), a parameter of the embedding; instants are
minutes.  A `ValueError` raise is an `Except.error` carrying the message. -/
def parseTimeframe (timeframe : String) (now : Int) : Except String (Int × Int) :=
  match matchTimeframe timeframe with
  | none =>
    .error ("Invalid timeframe format: '" ++ timeframe ++
      "'. Expected format: <number><unit> (e.g., '2h', '30m', '7d', '1w')")
  | some (value, unit) => .ok (now - (value * unitMinutes unit : Nat), now)

/-- The `unit_names` table of `human_readable_timeframe`: the word used for
unit `u` when the parsed value is `value`. -/
def unitWord (u : Char) (value : Nat) : String :=
  if u == 'm' then (if value == 1 then "minute" else "minutes")
  else if u == 'h' then (if value == 1 then "hour" else "hours")
  else if u == 'd' then (if value == 1 then "day" else "days")
  else (if value == 1 then "week" else "weeks")

/-- The singular unit word of the claim's rendering `"Last {N} {unit-word}"`
(its plural is obtained by appending `"s"`). -/
def singularUnit (u : Char) : String :=
  if u == 'm' then "minute"
  else if u == 'h' then "hour"
  else if u == 'd' then "day"
  else "week"

/-- Model of `human_readable_timeframe` from `utils/timeframe.py`: render a
canonical timeframe as `"Last {value} {unit_names[unit]}"`, returning the
input unchanged when the grammar does not match. -/
def humanReadableTimeframe (timeframe : String) : String :=
  match matchTimeframe timeframe with
  | none => timeframe
  | some (value, unit) =>
    "Last " ++ natRepr value ++ " " ++ unitWord unit value

/-! ## `dynatrace_api/problems.py` -/

/-- One element of `impactedEntities` / `affectedEntities`, or the
`rootCauseEntity` payload.  `entityId` stands for the chained access
`entity.get("entityId", {}).get("id")` (so `none` when either key is
missing); `name` is `entity.get("name", "")` (missing name collapsed to the
empty string, exactly the default the code supplies). -/
structure EntityRef where
  entityId : Option String
  name : String
deriving DecidableEq, Repr

/-- An incident record as `problems.py` reads it.  `rootCauseEntity` is
`none` when the key is missing or maps to the empty (falsy) dict;
`relevance` is the tag slot written by the correlation pass (absent on raw
backend records); `otherFields` stands for the remaining payload entries,
which the code never reads or writes. -/
structure Problem where
  title : String
  displayName : String
  status : String
  severityLevel : String
  impactedEntities : List EntityRef
  affectedEntities : List EntityRef
  rootCauseEntity : Option EntityRef
  relevance : Option String
  otherFields : String
deriving DecidableEq, Repr

/-- Model of `all_entities = impacted + affected` plus the root-cause entity when
that is present (truthy), in the order the loop builds it. -/
def allEntities (p : Problem) : List EntityRef :=
  p.impactedEntities ++ p.affectedEntities ++
    (match p.rootCauseEntity with
     | some rc => [rc]
     | none => [])

/-- Model of `problem.get("rootCauseEntity", {}).get("entityId", {}).get("id")`. -/
def rootCauseId (p : Problem) : Option String :=
  match p.rootCauseEntity with
  | some rc => rc.entityId
  | none => none

/-- Model of `DynatraceProblemsAPI._calculate_relevance`. -/
def calculateRelevance (p : Problem) (entityId : String) : String :=
  if rootCauseId p == some entityId then "root_cause"
  else if p.impactedEntities.any (fun e => e.entityId == some entityId) then
    "directly_impacted"
  else "indirectly_affected"

/-- Which branch of the per-entity loop body fired. -/
inductive HitKind where
  | idHit
  | nameHit
deriving DecidableEq, Repr

/-- Does `entity` satisfy the name fallback `service_name.lower() in
entity.get("name", "").lower()`? -/
def entityNameHit (serviceName : String) (e : EntityRef) : Bool :=
  listContainsSub (pyLower e.name).data (pyLower serviceName).data

/-- The `for entity in all_entities` loop of `_filter_problems_by_entity`:
scan in order, for each entity test the entity-id branch first, then the
name branch, and stop (`break`) at the first hit. -/
def firstHit (entityId serviceName : String) : List EntityRef → Option HitKind
  | [] => none
  | e :: es =>
    if e.entityId == some entityId then some .idHit
    else if entityNameHit serviceName e then some .nameHit
    else firstHit entityId serviceName es

/-- The relevance tag `_filter_problems_by_entity` writes on `problem`
(`none` when the record is not accepted). -/
def entityTag (entityId serviceName : String) (p : Problem) : Option String :=
  match firstHit entityId serviceName (allEntities p) with
  | some .idHit => some (calculateRelevance p entityId)
  | some .nameHit => some "name_match"
  | none => none

/-- Model of `DynatraceProblemsAPI._filter_problems_by_entity`: the returned
`filtered_problems` list, each accepted record carrying the tag the pass
wrote into it. -/
def filterProblemsByEntity (problems : List Problem)
    (entityId serviceName : String) : List Problem :=
  problems.filterMap fun p =>
    (entityTag entityId serviceName p).map fun t => { p with relevance := some t }

/-- The relevance tag `_filter_problems_by_name` writes on `problem`
(`none` when the record is not accepted): title/display-name containment
first (`title_match`), else containment in some impacted/affected entity
name (`entity_match`). -/
def nameTag (serviceName : String) (p : Problem) : Option String :=
  let s := pyLower serviceName
  if strContains (pyLower p.title) s || strContains (pyLower p.displayName) s then
    some "title_match"
  else if (p.impactedEntities ++ p.affectedEntities).any
      (fun e => listContainsSub (pyLower e.name).data s.data) then
    some "entity_match"
  else none

/-- Model of `DynatraceProblemsAPI._filter_problems_by_name`. -/
def filterProblemsByName (problems : List Problem)
    (serviceName : String) : List Problem :=
  problems.filterMap fun p =>
    (nameTag serviceName p).map fun t => { p with relevance := some t }

/-- The post-state of the whole input list after the entity-mode pass: the
pass mutates accepted records in place (writes `relevance`) and leaves the
rest untouched. -/
def afterEntityPass (problems : List Problem)
    (entityId serviceName : String) : List Problem :=
  problems.map fun p =>
    match entityTag entityId serviceName p with
    | some t => { p with relevance := some t }
    | none => p

/-- The post-state of the whole input list after the name-mode pass. -/
def afterNamePass (problems : List Problem) (serviceName : String) : List Problem :=
  problems.map fun p =>
    match nameTag serviceName p with
    | some t => { p with relevance := some t }
    | none => p

/-- The four buckets built by `categorize_problems`. -/
structure Categorized where
  critical : List Problem
  important : List Problem
  related : List Problem
  resolved : List Problem
deriving DecidableEq, Repr

/-- Model of `problem.get("status", "").upper() == "RESOLVED"`. -/
def statusResolved (p : Problem) : Bool :=
  pyUpper p.status == "RESOLVED"

/-- Model of `relevance == "root_cause" or severity in ["ERROR", "CUSTOM_ALERT"]`
(with `relevance = problem.get("relevance", "unknown")` and
`severity = problem.get("severityLevel", "").upper()`). -/
def criticalCond (p : Problem) : Bool :=
  p.relevance.getD "unknown" == "root_cause" ||
    pyUpper p.severityLevel == "ERROR" || pyUpper p.severityLevel == "CUSTOM_ALERT"

/-- Model of `relevance == "directly_impacted"`. -/
def importantCond (p : Problem) : Bool :=
  p.relevance.getD "unknown" == "directly_impacted"

/-- Model of `DynatraceProblemsAPI.categorize_problems`: one pass over the records,
appending each to the first bucket whose condition holds, in the priority
order resolved / critical / important / related of the `if`/`elif` chain. -/
def categorizeProblems : List Problem → Categorized
  | [] => ⟨[], [], [], []⟩
  | p :: ps =>
    let c := categorizeProblems ps
    if statusResolved p then { c with resolved := p :: c.resolved }
    else if criticalCond p then { c with critical := p :: c.critical }
    else if importantCond p then { c with important := p :: c.important }
    else { c with related := p :: c.related }

/-! ## `prompt_handler/intent_parser.py`: category detection -/

/-- The `intent_keywords` table of `_detect_intent_type_flexible`, in source
(dict-insertion) order. -/
def intentKeywords : List (String × List String) :=
  [("check_abnormality",
    ["check", "status", "health", "issue", "problem", "error",
     "alert", "wrong", "failing", "down", "broken", "not working",
     "abnormal", "anomaly", "investigate", "look into", "whats up with",
     "how is", "how are", "happening with", "going on"]),
   ("list_services",
    ["list", "show all", "show me", "get all", "what services",
     "available services", "which services", "all services",
     "what do we have", "what applications", "show services"]),
   ("service_details",
    ["details about", "info about", "information on", "tell me about",
     "what is", "describe", "explain", "more about"]),
   ("metrics_analysis",
    ["metrics", "performance", "stats", "statistics", "kpi",
     "how fast", "response time", "latency", "throughput",
     "cpu", "memory", "disk", "analyze", "analysis"]),
   ("compare_services",
    ["compare", "comparison", "versus", "vs", "difference between",
     "which is better", "against", "relative to"]),
   ("troubleshoot",
    ["troubleshoot", "diagnose", "debug", "fix", "solve",
     "why is", "root cause", "reason for", "causing",
     "slow", "help with", "figure out"])]

/-- Model of `sum(1 for keyword in keywords if keyword in text)`. -/
def scoreOf (text : String) (keywords : List String) : Nat :=
  (keywords.filter (fun k => strContains text k)).length

/-- Python's `max(..., key=...)` iteration: fold left keeping the current
best, replacing it only on a strictly greater score, so the first maximal
element wins. -/
def pyMaxFrom (acc : String × Nat) : List (String × Nat) → String × Nat
  | [] => acc
  | b :: t => pyMaxFrom (if b.2 > acc.2 then b else acc) t

/-- Model of `max(scores, key=scores.get)` over a nonempty assoc list (the `scores`
dict in insertion order), returning the key. -/
def pyMaxKey : List (String × Nat) → Option String
  | [] => none
  | a :: t => some (pyMaxFrom a t).1

/-- Model of `AIIntentParser._detect_intent_type_flexible`: score every category,
keep the positive scores (in insertion order), return the key of the
maximum, `"general_question"` when no keyword matched at all. -/
def detectIntentTypeFlexible (text : String) : String :=
  let scores := (intentKeywords.map (fun kv => (kv.1, scoreOf text kv.2))).filter
    (fun kv => decide (0 < kv.2))
  match pyMaxKey scores with
  | some intent => intent
  | none => "general_question"

/-- The highest score in a score table (0 for the empty table). -/
def maxScore (l : List (String × Nat)) : Nat :=
  l.foldr (fun kv m => max kv.2 m) 0

/-- Modelled from the spec's words (§4.1 category scoring), for comparison
with `detectIntentTypeFlexible`: score each category, take the highest
score, break ties by the declared precedence order — the first category in
the fixed sequence `intentKeywords` (CheckHealth = `check_abnormality`,
then ListServices, ServiceDetails, MetricsAnalysis, CompareServices,
Troubleshoot) achieving the highest score wins — and answer
`"general_question"` when all scores are zero. -/
def detectIntentTypeSpec (text : String) : String :=
  let scores := intentKeywords.map (fun kv => (kv.1, scoreOf text kv.2))
  let best := maxScore scores
  if best = 0 then "general_question"
  else
    match scores.find? (fun kv => kv.2 == best) with
    | some kv => kv.1
    | none => "general_question"

/-! ## `prompt_handler/intent_parser.py`: timeframe extraction -/

/-- Model of `\b` between `prev` (the character before the scan position, `none` at
the start of the string) and a word character at the scan position. -/
def boundaryBefore (prev : Option Char) : Bool :=
  match prev with
  | none => true
  | some c => !isWordChar c

/-- Model of `\b` after a word character, before `rest`. -/
def boundaryAfter (rest : List Char) : Bool :=
  match rest with
  | [] => true
  | c :: _ => !isWordChar c

/-- Consume an exact literal, returning the remainder. -/
def dropLit : List Char → List Char → Option (List Char)
  | [], cs => some cs
  | _ :: _, [] => none
  | l :: ls, c :: cs => if c == l then dropLit ls cs else none

/-- Try the alternatives of a `(?:w1|w2|...)` group in order at the current
position (the alternatives used in the sources are never prefixes of one
another, so the first that matches is the only one). -/
def dropAlt : List (List Char) → List Char → Option (List Char)
  | [], _ => none
  | w :: ws, cs =>
    match dropLit w cs with
    | some rest => some rest
    | none => dropAlt ws cs

/-- Model of `\s+`: at least one whitespace character, maximal munch. -/
def dropSpaces1 : List Char → Option (List Char)
  | [] => none
  | c :: t => if isPySpace c then some (t.dropWhile isPySpace) else none

/-- Pattern 1 of `_extract_timeframe_flexible`, `\b(\d+)\s*([mhdw])\b`,
tried at one position: the digit group and the unit group on success. -/
def tryNumUnit (prev : Option Char) (cs : List Char) : Option (List Char × Char) :=
  if !boundaryBefore prev then none
  else
    let ds := cs.takeWhile Char.isDigit
    if ds.isEmpty then none
    else
      match (cs.dropWhile Char.isDigit).dropWhile isPySpace with
      | [] => none
      | u :: tail =>
        if isUnitChar u && boundaryAfter tail then some (ds, u) else none

/-- Model of `re.search` for pattern 1: try every position from the left. -/
def scanNumUnit : Option Char → List Char → Option (List Char × Char)
  | _, [] => none
  | prev, c :: t =>
    match tryNumUnit prev (c :: t) with
    | some r => some r
    | none => scanNumUnit (some c) t

/-- The `(minute|hour|day|week)` group with the first letter the code takes
from `match.group(2)[0]`. -/
def unitWordTable : List (List Char × Char) :=
  [("minute".data, 'm'), ("hour".data, 'h'), ("day".data, 'd'), ("week".data, 'w')]

/-- Model of `(minute|hour|day|week)s?\b` at the current position: the first letter
of the unit word on success (the four words are never prefixes of one
another, and the optional `s` cannot be given back because `s` is a word
character, so the scan is backtracking-free). -/
def findUnitWord (afterSp : List Char) : List (List Char × Char) → Option Char
  | [] => none
  | (w, letter) :: ws =>
    match dropLit w afterSp with
    | some rest =>
      match rest with
      | 's' :: rest2 => if boundaryAfter rest2 then some letter else none
      | _ => if boundaryAfter rest then some letter else none
    | none => findUnitWord afterSp ws

/-- Model of `(\d+)\s*(minute|hour|day|week)s?\b` at the current position, shared by
patterns 2 and 3: the digit group and the first letter of the unit word. -/
def tryValueUnitWord (cs : List Char) : Option (List Char × Char) :=
  let ds := cs.takeWhile Char.isDigit
  if ds.isEmpty then none
  else
    match findUnitWord ((cs.dropWhile Char.isDigit).dropWhile isPySpace) unitWordTable with
    | some letter => some (ds, letter)
    | none => none

/-- Pattern 2, `\b(?:last|past|previous|recent)\s+(\d+)\s*(minute|hour|day|
week)s?\b`, tried at one position. -/
def tryLastN (prev : Option Char) (cs : List Char) : Option (List Char × Char) :=
  if !boundaryBefore prev then none
  else
    match dropAlt ["last".data, "past".data, "previous".data, "recent".data] cs with
    | none => none
    | some r1 =>
      match dropSpaces1 r1 with
      | none => none
      | some r2 => tryValueUnitWord r2

/-- Model of `re.search` for pattern 2. -/
def scanLastN : Option Char → List Char → Option (List Char × Char)
  | _, [] => none
  | prev, c :: t =>
    match tryLastN prev (c :: t) with
    | some r => some r
    | none => scanLastN (some c) t

/-- Pattern 3, `\bin\s+the\s+(?:last|past)\s+(\d+)\s*(minute|hour|day|
week)s?\b`, tried at one position. -/
def tryInTheLastN (prev : Option Char) (cs : List Char) : Option (List Char × Char) :=
  if !boundaryBefore prev then none
  else
    match dropLit "in".data cs with
    | none => none
    | some r1 =>
      match dropSpaces1 r1 with
      | none => none
      | some r2 =>
        match dropLit "the".data r2 with
        | none => none
        | some r3 =>
          match dropSpaces1 r3 with
          | none => none
          | some r4 =>
            match dropAlt ["last".data, "past".data] r4 with
            | none => none
            | some r5 =>
              match dropSpaces1 r5 with
              | none => none
              | some r6 => tryValueUnitWord r6

/-- Model of `re.search` for pattern 3. -/
def scanInTheLastN : Option Char → List Char → Option (List Char × Char)
  | _, [] => none
  | prev, c :: t =>
    match tryInTheLastN prev (c :: t) with
    | some r => some r
    | none => scanInTheLastN (some c) t

/-- The `time_keywords` map of pattern 4, in source (dict-insertion)
order. -/
def timeKeywords : List (String × String) :=
  [("today", "24h"), ("yesterday", "48h"), ("this week", "7d"),
   ("this month", "30d"), ("recent", "2h"), ("recently", "2h")]

/-- Model of `AIIntentParser._extract_timeframe_flexible`: the four-pattern cascade,
first match wins, default `"2h"`. -/
def extractTimeframeFlexible (text : String) : String :=
  match scanNumUnit none text.data with
  | some (ds, u) => ⟨ds ++ [u]⟩
  | none =>
    match scanLastN none text.data with
    | some (ds, u) => ⟨ds ++ [u]⟩
    | none =>
      match scanInTheLastN none text.data with
      | some (ds, u) => ⟨ds ++ [u]⟩
      | none =>
        match timeKeywords.find? (fun kv => strContains text kv.1) with
        | some kv => kv.2
        | none => "2h"

/-! ## `prompt_handler/intent_parser.py`: service-name extraction

None of the claims is about `_extract_service_name_flexible`, but it is part
of `_parse_with_patterns`, so it is embedded like the rest: one scanner per
pattern of the cascade, first match wins. -/

/-- The token class `[a-zA-Z0-9\-_.]`. -/
def isTokChar (c : Char) : Bool :=
  c.isAlphanum || c == '-' || c == '_' || c == '.'

/-- The token class `[a-zA-Z0-9\-_]` of pattern 5. -/
def isTok5Char (c : Char) : Bool :=
  c.isAlphanum || c == '-' || c == '_'

/-- Model of `\b<keyword>[:\s]+([a-zA-Z0-9\-_.]+)` tried at one position (patterns
1-3a share this shape, with the keyword alternatives differing). -/
def tryKeyTok (keys : List (List Char)) (prev : Option Char) (cs : List Char) :
    Option (List Char) :=
  if !boundaryBefore prev then none
  else
    match dropAlt keys cs with
    | none => none
    | some r1 =>
      match r1 with
      | [] => none
      | c :: _ =>
        if c == ':' || isPySpace c then
          let tok := (r1.dropWhile (fun d => d == ':' || isPySpace d)).takeWhile isTokChar
          if tok.isEmpty then none else some tok
        else none

/-- Model of `re.search` for the keyword-then-token patterns. -/
def scanKeyTok (keys : List (List Char)) : Option Char → List Char → Option (List Char)
  | _, [] => none
  | prev, c :: t =>
    match tryKeyTok keys prev (c :: t) with
    | some r => some r
    | none => scanKeyTok keys (some c) t

/-- Model of `([a-zA-Z0-9\-_.]+)\s+service\b` tried at one position (pattern 3b). -/
def tryTokService (cs : List Char) : Option (List Char) :=
  let tok := cs.takeWhile isTokChar
  if tok.isEmpty then none
  else
    match dropSpaces1 (cs.dropWhile isTokChar) with
    | none => none
    | some r1 =>
      match dropLit "service".data r1 with
      | none => none
      | some r2 => if boundaryAfter r2 then some tok else none

/-- Model of `re.search` for pattern 3b (the group carries no leading `\b`, so every
start position is tried, including positions inside a token). -/
def scanTokService : List Char → Option (List Char)
  | [] => none
  | c :: t =>
    match tryTokService (c :: t) with
    | some r => some r
    | none => scanTokService t

/-- Model of `["\']([a-zA-Z0-9\-_.]+)["\']` tried at one position (pattern 4); the
class accepts either quote on either side. -/
def tryQuoted (cs : List Char) : Option (List Char) :=
  match cs with
  | [] => none
  | q :: r1 =>
    if q == '"' || q == '\'' then
      let tok := r1.takeWhile isTokChar
      if tok.isEmpty then none
      else
        match r1.dropWhile isTokChar with
        | [] => none
        | q2 :: _ => if q2 == '"' || q2 == '\'' then some tok else none
    else none

/-- Model of `re.search` for pattern 4. -/
def scanQuoted : List Char → Option (List Char)
  | [] => none
  | c :: t =>
    match tryQuoted (c :: t) with
    | some r => some r
    | none => scanQuoted t

/-- The suffix alternatives of pattern 5a. -/
def svcSuffixes : List (List Char) :=
  ["api".data, "service".data, "controller".data, "backend".data,
   "frontend".data, "gateway".data, "proxy".data]

/-- Does `w` end with `suf`? -/
def endsWith (w suf : List Char) : Bool :=
  List.isPrefixOf suf.reverse w.reverse

/-- Backtracking of `([a-zA-Z0-9\-_]+(?:api|...|proxy))\b` inside the
maximal token run `run` (followed by `after`): try the group end from the
longest candidate down, accepting a candidate that is longer than its
suffix word, ends with one of the suffix words, and is followed by a word
boundary. -/
def trySuffixSplit (run after : List Char) : Nat → Option (List Char)
  | 0 => none
  | k + 1 =>
    let g := run.take (k + 1)
    let rest := run.drop (k + 1) ++ after
    if boundaryAfter rest &&
        svcSuffixes.any (fun suf => endsWith g suf && suf.length < g.length) then
      some g
    else trySuffixSplit run after k

/-- Pattern 5a tried at one position. -/
def trySuffixTok (prev : Option Char) (cs : List Char) : Option (List Char) :=
  if !boundaryBefore prev then none
  else
    let run := cs.takeWhile isTok5Char
    if run.isEmpty then none
    else trySuffixSplit run (cs.dropWhile isTok5Char) run.length

/-- Model of `re.search` for pattern 5a. -/
def scanSuffixTok : Option Char → List Char → Option (List Char)
  | _, [] => none
  | prev, c :: t =>
    match trySuffixTok prev (c :: t) with
    | some r => some r
    | none => scanSuffixTok (some c) t

/-- Model of `\b(?:api|service|controller)[-_]([a-zA-Z0-9\-_]+)\b` tried at one
position (pattern 5b). -/
def tryPrefTok (prev : Option Char) (cs : List Char) : Option (List Char) :=
  if !boundaryBefore prev then none
  else
    match dropAlt ["api".data, "service".data, "controller".data] cs with
    | none => none
    | some r1 =>
      match r1 with
      | [] => none
      | sep :: r2 =>
        if sep == '-' || sep == '_' then
          let tok := r2.takeWhile isTok5Char
          if tok.isEmpty then none else some tok
        else none

/-- Model of `re.search` for pattern 5b. -/
def scanPrefTok : Option Char → List Char → Option (List Char)
  | _, [] => none
  | prev, c :: t =>
    match tryPrefTok prev (c :: t) with
    | some r => some r
    | none => scanPrefTok (some c) t

/-- Model of `\b<action>\s+(?:the\s+)?([a-zA-Z0-9\-_.]+)\b` tried at one position
(pattern 6); the optional `the\s+` is taken greedily and given back when no
token follows it. -/
def tryActionTok (action : List Char) (prev : Option Char) (cs : List Char) :
    Option (List Char) :=
  if !boundaryBefore prev then none
  else
    match dropLit action cs with
    | none => none
    | some r1 =>
      match dropSpaces1 r1 with
      | none => none
      | some r2 =>
        let afterThe :=
          match dropLit "the".data r2 with
          | some r3 =>
            match dropSpaces1 r3 with
            | some r4 => if (r4.takeWhile isTokChar).isEmpty then none else some r4
            | none => none
          | none => none
        let body := match afterThe with
          | some r4 => r4
          | none => r2
        let tok := body.takeWhile isTokChar
        if tok.isEmpty then none
        else if boundaryAfter (body.dropWhile isTokChar) then some tok
        else none

/-- Model of `re.search` for one action word of pattern 6. -/
def scanActionTok (action : List Char) : Option Char → List Char → Option (List Char)
  | _, [] => none
  | prev, c :: t =>
    match tryActionTok action prev (c :: t) with
    | some r => some r
    | none => scanActionTok action (some c) t

/-- The generic nouns excluded by pattern 6. -/
def genericNouns : List String :=
  ["service", "services", "status", "health", "metrics", "issues"]

/-- The `for action in action_words` loop of pattern 6: the first action
word whose first match is not a generic noun. -/
def scanActions : List (List Char) → List Char → Option (List Char)
  | [], _ => none
  | a :: as', cs =>
    match scanActionTok a none cs with
    | some tok =>
      if genericNouns.any (fun g => g.data == tok) then scanActions as' cs
      else some tok
    | none => scanActions as' cs

/-- Model of `AIIntentParser._extract_service_name_flexible`: the six-pattern
cascade, first match wins. -/
def extractServiceNameFlexible (text : String) : Option String :=
  match scanKeyTok ["for".data] none text.data with
  | some tok => some ⟨tok⟩
  | none =>
  match scanKeyTok ["of".data, "about".data] none text.data with
  | some tok => some ⟨tok⟩
  | none =>
  match scanKeyTok ["service".data] none text.data with
  | some tok => some ⟨tok⟩
  | none =>
  match scanTokService text.data with
  | some tok => some ⟨tok⟩
  | none =>
  match scanQuoted text.data with
  | some tok => some ⟨tok⟩
  | none =>
  match scanSuffixTok none text.data with
  | some tok => some ⟨tok⟩
  | none =>
  match scanPrefTok none text.data with
  | some tok => some ⟨tok⟩
  | none =>
  match scanActions
      ["check".data, "analyze".data, "monitor".data, "debug".data,
       "fix".data, "look".data, "see".data, "show".data] text.data with
  | some tok => some ⟨tok⟩
  | none => none

/-! ## `prompt_handler/intent_parser.py`: the `parse` entry point, and
`main.py`: conversation context -/

/-- The intent dictionary built by the parser and consumed by `main.py`.
`type` and the two carried-over fields are `Option`s because `main.py`
reads them with `dict.get` (capturing both a missing key and an explicit
`None`/`null` value); `isFollowup` models `intent.get("is_followup")`,
whose absence is falsy, so `false` stands for the missing key. -/
structure Intent where
  type : Option String
  serviceName : Option String
  timeframe : Option String
  additionalContext : String
  rawQuery : String
  isFollowup : Bool
deriving DecidableEq, Repr

/-- Model of `AIIntentParser._parse_with_patterns` (always called on the stripped
input): detect the category, extract the entities, and assemble the intent
dictionary.  It returns a dictionary on every input. -/
def parseWithPatterns (text : String) : Intent :=
  let textLower := pyLower text
  let intentType := detectIntentTypeFlexible textLower
  let intentType := if intentType == "" then "general_question" else intentType
  { type := some intentType
    serviceName := extractServiceNameFlexible textLower
    timeframe := some (extractTimeframeFlexible textLower)
    additionalContext := ""
    rawQuery := text
    isFollowup := false }

/-- Outcome of one attempt of the generative-backend tier
(`_parse_with_ai` / `_call_ai`): either the validated intent dictionary, or
one of the failure modes, all of which the code catches inside
`_parse_with_ai` and converts into `None`. -/
inductive AIOutcome where
  | ok (intent : Intent)
  | timeout
  | malformedJSON
  | missingKey
  | unsupportedProvider
deriving DecidableEq, Repr

/-- Model of `AIIntentParser._parse_with_ai`: the intent on success, `None` on every
failure (the `except Exception` handler swallows timeouts, JSON errors and
unsupported-provider errors alike). -/
def parseWithAI : AIOutcome → Option Intent
  | .ok intent => some intent
  | _ => none

/-- Is the outcome one of the failure modes? -/
def aiFailed : AIOutcome → Bool
  | .ok _ => false
  | _ => true

/-- Model of `AIIntentParser.parse`.  `useAI` is `self.use_ai` (whether a backend is
configured); `outcome` is what the backend attempt would produce this turn
(unused when `useAI` is false).  `none` models the bare `return None` on
blank input. -/
def parse (useAI : Bool) (outcome : AIOutcome) (userInput : String) : Option Intent :=
  if pyStrip userInput == "" then none
  else
    let cleaned := pyStrip userInput
    match (if useAI then parseWithAI outcome else none) with
    | some intent => some intent
    | none => some (parseWithPatterns cleaned)

/-- Model of `st.session_state.conversation_context`: the per-session mutable
record.  Each slot is an `Option` (the context is created with
`last_service = None`, `last_intent = None`); `lastTimeframe` starts as
`"2h"` but is an `Option` too so that `apply_context` can be analysed on
every context state reachable by the code shape. -/
structure ConvContext where
  lastService : Option String
  lastIntent : Option String
  lastTimeframe : Option String
deriving DecidableEq, Repr

/-- Python truthiness of an optional string: `None` and `""` are falsy. -/
def truthyStr : Option String → Bool
  | none => false
  | some s => !(s == "")

/-- Model of `apply_context` from `main.py`: carry the last service over to a
service-less follow-up of the same intent type, and substitute the last
timeframe when the intent's timeframe is absent or the literal default
`"2h"`. -/
def applyContext (ctx : ConvContext) (intent : Intent) : Intent :=
  let intent :=
    if !truthyStr intent.serviceName && truthyStr ctx.lastService then
      if intent.type == ctx.lastIntent then
        { intent with serviceName := ctx.lastService, isFollowup := true }
      else intent
    else intent
  if !truthyStr intent.timeframe || intent.timeframe == some "2h" then
    if truthyStr ctx.lastTimeframe then { intent with timeframe := ctx.lastTimeframe }
    else intent
  else intent

/-- Model of `update_context` from `main.py`: overwrite each context slot with the
intent's corresponding field when that field is truthy. -/
def updateContext (ctx : ConvContext) (intent : Intent) : ConvContext :=
  let ctx := if truthyStr intent.serviceName then
      { ctx with lastService := intent.serviceName } else ctx
  let ctx := if truthyStr intent.type then
      { ctx with lastIntent := intent.type } else ctx
  if truthyStr intent.timeframe then
    { ctx with lastTimeframe := intent.timeframe } else ctx

/-! ## Helper lemmas: characters and strings -/

/-- Lower-casing leaves a decimal digit unchanged. -/
theorem pyLowerChar_digit (c : Char) (h : c.isDigit = true) : pyLowerChar c = c := by
  have h' : ('0' ≤ c ∧ c ≤ '9') := by
    have : ('0' ≤ c && c ≤ '9') = true := h
    simpa using this
  unfold pyLowerChar
  rw [if_neg]
  rintro ⟨h1, _⟩
  exact absurd (le_trans h1 h'.2) (by decide)

/-- Lower-casing leaves a timeframe unit letter unchanged. -/
theorem pyLowerChar_unit (u : Char) (h : isUnitChar u = true) : pyLowerChar u = u := by
  unfold isUnitChar at h
  simp only [Bool.or_eq_true, beq_iff_eq] at h
  rcases h with ((h | h) | h) | h <;> subst h <;> decide

/-- Stripping erases a string exactly when the string is all whitespace. -/
theorem pyStrip_eq_empty_iff (s : String) :
    (pyStrip s = "") ↔ s.data.all isPySpace = true := by
  have hstep : ∀ l : List Char, (∀ x ∈ l.dropWhile isPySpace, isPySpace x = true) ↔
      (∀ x ∈ l, isPySpace x = true) := by
    intro l
    constructor
    · intro h
      induction l with
      | nil => simp
      | cons c t ih =>
        by_cases hc : isPySpace c = true
        · rw [List.dropWhile_cons_of_pos hc] at h
          intro x hx
          rcases List.mem_cons.mp hx with rfl | hx
          · exact hc
          · exact ih h x hx
        · rw [List.dropWhile_cons_of_neg hc] at h
          exact h
    · intro h x hx
      exact h x ((List.dropWhile_sublist _).subset hx)
  constructor
  · intro h
    have h1 : ((s.data.dropWhile isPySpace).reverse.dropWhile isPySpace).reverse = [] := by
      have := congrArg String.data h
      simpa [pyStrip] using this
    rw [List.reverse_eq_nil_iff, List.dropWhile_eq_nil_iff] at h1
    rw [List.all_eq_true]
    exact (hstep _).mp (fun x hx => h1 x (by simpa using hx))
  · intro h
    have h1 : s.data.dropWhile isPySpace = [] := by
      rw [List.dropWhile_eq_nil_iff]
      exact fun x hx => (List.all_eq_true.mp h) x hx
    show (⟨_⟩ : String) = ⟨[]⟩
    rw [h1]
    simp

/-! ## Helper lemmas: the timeframe grammar `^[0-9]+[mhdw]$` -/

/-- The structural reading of a successful `re.match(r'^(\d+)([mhdw])$', s.lower())`:
the lower-cased string is a nonempty digit block followed by one unit letter. -/
def MatchesTfGrammar (s : String) : Prop :=
  ∃ ds u, (pyLower s).data = ds ++ [u] ∧ ds ≠ [] ∧
    ds.all Char.isDigit = true ∧ isUnitChar u = true

/-- Completeness: `matchTimeframe` succeeds, with the value and unit the regex groups
extract, on every string of the grammar. -/
theorem matchTimeframe_of_decomp (s : String) (ds : List Char) (u : Char)
    (hdec : (pyLower s).data = ds ++ [u]) (hne : ds ≠ [])
    (hdig : ds.all Char.isDigit = true) (hu : isUnitChar u = true) :
    matchTimeframe s = some (digitsToNat ds, u) := by
  have hne' : ds.reverse ≠ [] := by simpa using hne
  unfold matchTimeframe
  rw [hdec]
  have hrev : (ds ++ [u]).reverse = u :: ds.reverse := by simp
  rw [hrev]
  simp [matchNumUnitRev, hu, List.all_reverse, hdig, List.isEmpty_iff, hne']

/-- Every successful `matchTimeframe` comes from a string of the grammar. -/
theorem matchesTfGrammar_of_match (s : String) (r : Nat × Char)
    (h : matchTimeframe s = some r) : MatchesTfGrammar s := by
  unfold matchTimeframe at h
  rcases hrev : (pyLower s).data.reverse with _ | ⟨u, rest⟩
  · rw [hrev] at h
    exact absurd h (by simp [matchNumUnitRev])
  · rw [hrev] at h
    simp only [matchNumUnitRev] at h
    by_cases hc : (isUnitChar u && !rest.isEmpty && rest.all Char.isDigit) = true
    · refine ⟨rest.reverse, u, ?_, ?_, ?_, ?_⟩
      · have := congrArg List.reverse hrev
        simpa using this
      · simp only [Bool.and_eq_true, Bool.not_eq_true'] at hc
        simp only [ne_eq, List.reverse_eq_nil_iff]
        intro hr
        rw [hr] at hc
        simp at hc
      · simp only [Bool.and_eq_true] at hc
        rw [List.all_reverse]
        exact hc.2
      · simp only [Bool.and_eq_true] at hc
        exact hc.1.1
    · rw [if_neg hc] at h
      exact absurd h (by simp)

/-- Failure of `matchTimeframe` happens exactly off the grammar. -/
theorem matchTimeframe_eq_none_iff (s : String) :
    matchTimeframe s = none ↔ ¬ MatchesTfGrammar s := by
  constructor
  · rintro h ⟨ds, u, hdec, hne, hdig, hu⟩
    rw [matchTimeframe_of_decomp s ds u hdec hne hdig hu] at h
    exact absurd h (by simp)
  · intro h
    rcases hm : matchTimeframe s with _ | r
    · rfl
    · exact absurd (matchesTfGrammar_of_match s r hm) h

/-- Claim C9: `parse_timeframe(s)` raises exactly when the lower-cased `s`
does not match `^[0-9]+[mhdw]$`, and on every matching `s` returns the pair
`(now - N * unit, now)` where `N` is the parsed numeric value and the unit
letter maps `m`/`h`/`d`/`w` to minutes/hours/days/weeks (instants counted
in minutes). -/
theorem parse_timeframe_error_iff_grammar (s : String) (now : Int) :
    ((∃ msg, parseTimeframe s now = .error msg) ↔ ¬ MatchesTfGrammar s) ∧
    (∀ ds u, (pyLower s).data = ds ++ [u] → ds ≠ [] →
      ds.all Char.isDigit = true → isUnitChar u = true →
      parseTimeframe s now = .ok (now - (digitsToNat ds * unitMinutes u : Nat), now)) := by
  constructor
  · constructor
    · rintro ⟨msg, hmsg⟩
      rw [← matchTimeframe_eq_none_iff]
      unfold parseTimeframe at hmsg
      rcases hm : matchTimeframe s with _ | v
      · rfl
      · rw [hm] at hmsg
        exact absurd hmsg (by simp)
    · intro h
      rw [← matchTimeframe_eq_none_iff] at h
      unfold parseTimeframe
      rw [h]
      exact ⟨_, rfl⟩
  · intro ds u hdec hne hdig hu
    unfold parseTimeframe
    rw [matchTimeframe_of_decomp s ds u hdec hne hdig hu]

/-- Witness for C9 at the concrete input `"2h"`, `now = 0`. -/
theorem parse_timeframe_error_iff_grammar_witness :
    parseTimeframe "2h" 0 = .ok (0 - (digitsToNat ['2'] * unitMinutes 'h' : Nat), 0) :=
  (parse_timeframe_error_iff_grammar "2h" 0).2 ['2'] 'h' (by decide) (by decide)
    (by decide) (by decide)

/-- The `unit_names` table picks the singular word exactly for value 1 and
the plural (singular + `"s"`) otherwise. -/
theorem unitWord_eq (u : Char) (value : Nat) :
    unitWord u value =
      (if value = 1 then singularUnit u else singularUnit u ++ "s") := by
  unfold unitWord singularUnit
  by_cases h1 : u == 'm' <;> by_cases h2 : u == 'h' <;> by_cases h3 : u == 'd' <;>
    by_cases hv : value = 1 <;> simp [h1, h2, h3, hv]

/-- Claim C7: for every string matching `^[0-9]+[mhdw]$` (case-insensitive
unit), `human_readable_timeframe` returns `"Last {N} {unit-word}"` with `N`
the parsed numeric value and the unit word singular exactly when `N = 1`;
in particular `"1w"` renders as `"Last 1 week"` and `"3h"` as
`"Last 3 hours"`. -/
theorem human_readable_timeframe_spec :
    (∀ (s : String) (ds : List Char) (u : Char),
      (pyLower s).data = ds ++ [u] → ds ≠ [] →
      ds.all Char.isDigit = true → isUnitChar u = true →
      humanReadableTimeframe s =
        "Last " ++ natRepr (digitsToNat ds) ++ " " ++
          (if digitsToNat ds = 1 then singularUnit u else singularUnit u ++ "s")) ∧
    humanReadableTimeframe "1w" = "Last 1 week" ∧
    humanReadableTimeframe "3h" = "Last 3 hours" := by
  refine ⟨?_, by decide, by decide⟩
  intro s ds u hdec hne hdig hu
  unfold humanReadableTimeframe
  rw [matchTimeframe_of_decomp s ds u hdec hne hdig hu]
  simp [unitWord_eq]

/-- Witness for C7 at the concrete input `"1w"`. -/
theorem human_readable_timeframe_spec_witness :
    humanReadableTimeframe "1w" =
      "Last " ++ natRepr (digitsToNat ['1']) ++ " " ++
        (if digitsToNat ['1'] = 1 then singularUnit 'w' else singularUnit 'w' ++ "s") :=
  human_readable_timeframe_spec.1 "1w" ['1'] 'w' (by decide) (by decide)
    (by decide) (by decide)

/-! ## Helper lemmas: `categorize_problems` -/

/-- Each bucket of `categorize_problems` is the filter of the input by the
bucket's branch condition of the `if`/`elif` chain. -/
theorem categorizeProblems_eq_filters (ps : List Problem) :
    (categorizeProblems ps).resolved = ps.filter (fun p => statusResolved p) ∧
    (categorizeProblems ps).critical =
      ps.filter (fun p => !statusResolved p && criticalCond p) ∧
    (categorizeProblems ps).important =
      ps.filter (fun p => !statusResolved p && !criticalCond p && importantCond p) ∧
    (categorizeProblems ps).related =
      ps.filter (fun p => !statusResolved p && !criticalCond p && !importantCond p) := by
  induction ps with
  | nil => simp [categorizeProblems]
  | cons p ps ih =>
    obtain ⟨ih1, ih2, ih3, ih4⟩ := ih
    by_cases h1 : statusResolved p
    · simp [categorizeProblems, h1, ih1, ih2, ih3, ih4, List.filter]
    · by_cases h2 : criticalCond p
      · simp [categorizeProblems, h1, h2, ih1, ih2, ih3, ih4, List.filter]
      · by_cases h3 : importantCond p
        · simp [categorizeProblems, h1, h2, h3, ih1, ih2, ih3, ih4, List.filter]
        · simp [categorizeProblems, h1, h2, h3, ih1, ih2, ih3, ih4, List.filter]

/-- The four buckets together hold exactly as many records as the input. -/
theorem categorizeProblems_length (ps : List Problem) :
    (categorizeProblems ps).resolved.length + (categorizeProblems ps).critical.length +
      (categorizeProblems ps).important.length + (categorizeProblems ps).related.length =
      ps.length := by
  induction ps with
  | nil => simp [categorizeProblems]
  | cons p ps ih =>
    by_cases h1 : statusResolved p
    · simp only [categorizeProblems, h1, if_pos, List.length_cons]
      simpa using by omega
    · by_cases h2 : criticalCond p
      · simp only [categorizeProblems, h1, h2, if_pos, if_neg, Bool.false_eq_true,
          not_false_iff, List.length_cons]
        omega
      · by_cases h3 : importantCond p
        · simp only [categorizeProblems, h1, h2, h3, if_pos, if_neg, Bool.false_eq_true,
            not_false_iff, List.length_cons]
          omega
        · simp only [categorizeProblems, h1, h2, h3, if_neg, Bool.false_eq_true,
            not_false_iff, List.length_cons]
          omega

/-- Claim C2: `categorize_problems` returns exactly the four buckets
resolved/critical/important/related; per record the priority order is
status `RESOLVED` first (overriding relevance), else relevance
`root_cause` or severity in `{ERROR, CUSTOM_ALERT}`, else relevance
`directly_impacted`, else related; the buckets are the corresponding
filters of the input, every input record lands in some bucket, membership
in distinct buckets is mutually exclusive, and the bucket sizes sum to the
input size. -/
theorem categorize_problems_partition (ps : List Problem) :
    ((categorizeProblems ps).resolved = ps.filter (fun p => statusResolved p) ∧
     (categorizeProblems ps).critical =
       ps.filter (fun p => !statusResolved p && criticalCond p) ∧
     (categorizeProblems ps).important =
       ps.filter (fun p => !statusResolved p && !criticalCond p && importantCond p) ∧
     (categorizeProblems ps).related =
       ps.filter (fun p => !statusResolved p && !criticalCond p && !importantCond p)) ∧
    (∀ p ∈ ps, p ∈ (categorizeProblems ps).resolved ∨
       p ∈ (categorizeProblems ps).critical ∨
       p ∈ (categorizeProblems ps).important ∨
       p ∈ (categorizeProblems ps).related) ∧
    (∀ p, ¬(p ∈ (categorizeProblems ps).resolved ∧ p ∈ (categorizeProblems ps).critical) ∧
       ¬(p ∈ (categorizeProblems ps).resolved ∧ p ∈ (categorizeProblems ps).important) ∧
       ¬(p ∈ (categorizeProblems ps).resolved ∧ p ∈ (categorizeProblems ps).related) ∧
       ¬(p ∈ (categorizeProblems ps).critical ∧ p ∈ (categorizeProblems ps).important) ∧
       ¬(p ∈ (categorizeProblems ps).critical ∧ p ∈ (categorizeProblems ps).related) ∧
       ¬(p ∈ (categorizeProblems ps).important ∧ p ∈ (categorizeProblems ps).related)) ∧
    (categorizeProblems ps).resolved.length + (categorizeProblems ps).critical.length +
      (categorizeProblems ps).important.length + (categorizeProblems ps).related.length =
      ps.length := by
  obtain ⟨h1, h2, h3, h4⟩ := categorizeProblems_eq_filters ps
  refine ⟨⟨h1, h2, h3, h4⟩, ?_, ?_, categorizeProblems_length ps⟩
  · intro p hp
    rw [h1, h2, h3, h4]
    by_cases c1 : statusResolved p
    · exact Or.inl (List.mem_filter.mpr ⟨hp, c1⟩)
    · by_cases c2 : criticalCond p
      · refine Or.inr (Or.inl (List.mem_filter.mpr ⟨hp, ?_⟩))
        simp [c1, c2]
      · by_cases c3 : importantCond p
        · refine Or.inr (Or.inr (Or.inl (List.mem_filter.mpr ⟨hp, ?_⟩)))
          simp [c1, c2, c3]
        · refine Or.inr (Or.inr (Or.inr (List.mem_filter.mpr ⟨hp, ?_⟩)))
          simp [c1, c2, c3]
  · intro p
    rw [h1, h2, h3, h4]
    refine ⟨?_, ?_, ?_, ?_, ?_, ?_⟩ <;>
      rintro ⟨ha, hb⟩ <;>
      have pa := (List.mem_filter.mp ha).2 <;>
      have pb := (List.mem_filter.mp hb).2 <;>
      simp only [Bool.and_eq_true, Bool.not_eq_true'] at pa pb <;>
      simp_all

/-- Witness for C2 at a concrete two-record input (one resolved record, one
open root-cause record). -/
theorem categorize_problems_partition_witness :
    (⟨"a", "", "RESOLVED", "", [], [], none, some "root_cause", ""⟩ : Problem) ∈
      (categorizeProblems
        [⟨"a", "", "RESOLVED", "", [], [], none, some "root_cause", ""⟩,
         ⟨"b", "", "OPEN", "", [], [], none, some "root_cause", ""⟩]).resolved ∨
    (⟨"a", "", "RESOLVED", "", [], [], none, some "root_cause", ""⟩ : Problem) ∈
      (categorizeProblems
        [⟨"a", "", "RESOLVED", "", [], [], none, some "root_cause", ""⟩,
         ⟨"b", "", "OPEN", "", [], [], none, some "root_cause", ""⟩]).critical ∨
    (⟨"a", "", "RESOLVED", "", [], [], none, some "root_cause", ""⟩ : Problem) ∈
      (categorizeProblems
        [⟨"a", "", "RESOLVED", "", [], [], none, some "root_cause", ""⟩,
         ⟨"b", "", "OPEN", "", [], [], none, some "root_cause", ""⟩]).important ∨
    (⟨"a", "", "RESOLVED", "", [], [], none, some "root_cause", ""⟩ : Problem) ∈
      (categorizeProblems
        [⟨"a", "", "RESOLVED", "", [], [], none, some "root_cause", ""⟩,
         ⟨"b", "", "OPEN", "", [], [], none, some "root_cause", ""⟩]).related :=
  (categorize_problems_partition
    [⟨"a", "", "RESOLVED", "", [], [], none, some "root_cause", ""⟩,
     ⟨"b", "", "OPEN", "", [], [], none, some "root_cause", ""⟩]).2.1
    ⟨"a", "", "RESOLVED", "", [], [], none, some "root_cause", ""⟩ (by decide)

/-! ## Claim C4: `apply_context` -/

/-- Claim C4 (amended): `apply_context` carries the last service over —
and marks a follow-up — when the intent has no (truthy) service name, the
context's `last_service` is present and truthy, and the intent's category
equals the context's last category; independently it substitutes the
context's last timeframe — provided that is present and truthy — when the
intent's timeframe is absent (falsy) or the literal `"2h"`; the remaining
intent fields are unchanged. -/
theorem apply_context_carryover (ctx : ConvContext) (intent : Intent) :
    (truthyStr intent.serviceName = false → truthyStr ctx.lastService = true →
      intent.type = ctx.lastIntent →
      (applyContext ctx intent).serviceName = ctx.lastService ∧
        (applyContext ctx intent).isFollowup = true) ∧
    ((truthyStr intent.timeframe = false ∨ intent.timeframe = some "2h") →
      truthyStr ctx.lastTimeframe = true →
      (applyContext ctx intent).timeframe = ctx.lastTimeframe) ∧
    ((applyContext ctx intent).type = intent.type ∧
     (applyContext ctx intent).additionalContext = intent.additionalContext ∧
     (applyContext ctx intent).rawQuery = intent.rawQuery) := by
  by_cases h1 : truthyStr intent.serviceName <;>
    by_cases h2 : truthyStr ctx.lastService <;>
    by_cases h3 : intent.type = ctx.lastIntent <;>
    by_cases h4 : truthyStr intent.timeframe <;>
    by_cases h5 : intent.timeframe = some "2h" <;>
    by_cases h6 : truthyStr ctx.lastTimeframe <;>
    simp_all [applyContext]

/-- Counterexample to C4 as stated: with context `{last_service: None,
last_category: check_abnormality, last_timeframe: None}` and a
service-less intent of the same category with timeframe `"2h"`, the claim
demands `is_followup = true` and timeframe substitution, but the code
requires a truthy `last_service` / `last_timeframe` and leaves both
untouched. -/
theorem apply_context_carryover_cex :
    (let ctx : ConvContext := ⟨none, some "check_abnormality", none⟩
     let intent : Intent := ⟨some "check_abnormality", none, some "2h", "", "q", false⟩
     truthyStr intent.serviceName = false ∧ intent.type = ctx.lastIntent ∧
       intent.timeframe = some "2h" ∧
       (applyContext ctx intent).isFollowup = false ∧
       ¬((applyContext ctx intent).timeframe = ctx.lastTimeframe)) := by decide

/-- Witness for C4 at the spec's concrete scenario: context
`{last_service: "payment-api", last_category: check_abnormality,
last_timeframe: "30m"}` and a service-less `check_abnormality` intent. -/
theorem apply_context_carryover_witness :
    (applyContext ⟨some "payment-api", some "check_abnormality", some "30m"⟩
        ⟨some "check_abnormality", none, some "2h", "", "how is it now?", false⟩).serviceName =
      some "payment-api" ∧
    (applyContext ⟨some "payment-api", some "check_abnormality", some "30m"⟩
        ⟨some "check_abnormality", none, some "2h", "", "how is it now?", false⟩).isFollowup =
      true ∧
    (applyContext ⟨some "payment-api", some "check_abnormality", some "30m"⟩
        ⟨some "check_abnormality", none, some "2h", "", "how is it now?", false⟩).timeframe =
      some "30m" := by
  have h := apply_context_carryover
    ⟨some "payment-api", some "check_abnormality", some "30m"⟩
    ⟨some "check_abnormality", none, some "2h", "", "how is it now?", false⟩
  obtain ⟨hsv, hfu⟩ := h.1 (by decide) (by decide) (by decide)
  exact ⟨hsv, hfu, h.2.1 (Or.inr rfl) (by decide)⟩

/-! ## Helper lemmas: the entity-mode filter -/

/-- When an entity with the target id appears in the scan and no earlier
entity name-matches, the per-record loop stops in the entity-id branch. -/
theorem firstHit_idHit_of_no_earlier_name (eid sn : String) :
    ∀ (pre : List EntityRef) (e : EntityRef) (post : List EntityRef),
      e.entityId = some eid → (∀ x ∈ pre, entityNameHit sn x = false) →
      firstHit eid sn (pre ++ e :: post) = some .idHit := by
  intro pre
  induction pre with
  | nil =>
    intro e post hid _
    simp only [List.nil_append, firstHit]
    rw [if_pos (by simp [hid])]
  | cons a pre ih =>
    intro e post hid hpre
    simp only [List.cons_append, firstHit]
    by_cases ha : a.entityId == some eid
    · rw [if_pos ha]
    · rw [if_neg ha, if_neg (by simp [hpre a (List.mem_cons_self a pre)])]
      exact ih e post hid (fun x hx => hpre x (List.mem_cons_of_mem a hx))

/-- Relevance values: `calculateRelevance` only ever produces the three role tags. -/
theorem calculateRelevance_mem (p : Problem) (eid : String) :
    calculateRelevance p eid = "root_cause" ∨
      calculateRelevance p eid = "directly_impacted" ∨
      calculateRelevance p eid = "indirectly_affected" := by
  unfold calculateRelevance
  split
  · exact Or.inl rfl
  · split
    · exact Or.inr (Or.inl rfl)
    · exact Or.inr (Or.inr rfl)

/-- Claim C1 (amended): in entity-id mode, whenever a record has an entity
with the target id at some point of the scan order (impacted ++ affected ++
root-cause) and no entity strictly earlier in that order name-matches the
target name, the record is tagged with the role-based relevance computed by
`_calculate_relevance` — one of `root_cause` / `directly_impacted` /
`indirectly_affected` — and never with `name_match`; the tagged record is
in the filter's output.  (In particular the entity-id branch wins whenever
both matches occur on the same, first matching, entity.) -/
theorem filter_by_entity_id_match_precedence (problems : List Problem) (p : Problem)
    (eid sn : String) (pre : List EntityRef) (e : EntityRef) (post : List EntityRef)
    (hsplit : allEntities p = pre ++ e :: post) (hid : e.entityId = some eid)
    (hpre : ∀ x ∈ pre, entityNameHit sn x = false) :
    entityTag eid sn p = some (calculateRelevance p eid) ∧
    (calculateRelevance p eid = "root_cause" ∨
      calculateRelevance p eid = "directly_impacted" ∨
      calculateRelevance p eid = "indirectly_affected") ∧
    entityTag eid sn p ≠ some "name_match" ∧
    (p ∈ problems →
      { p with relevance := some (calculateRelevance p eid) } ∈
        filterProblemsByEntity problems eid sn) := by
  have htag : entityTag eid sn p = some (calculateRelevance p eid) := by
    unfold entityTag
    rw [hsplit, firstHit_idHit_of_no_earlier_name eid sn pre e post hid hpre]
  refine ⟨htag, calculateRelevance_mem p eid, ?_, ?_⟩
  · rw [htag]
    intro hcontra
    have := Option.some.inj hcontra
    rcases calculateRelevance_mem p eid with h | h | h <;> rw [h] at this <;>
      exact absurd this (by decide)
  · intro hp
    unfold filterProblemsByEntity
    exact List.mem_filterMap.mpr ⟨p, hp, by rw [htag]; rfl⟩

/-- Witness for C1 at a concrete record whose single entity carries the
target id. -/
theorem filter_by_entity_id_match_precedence_witness :
    entityTag "SERVICE-9" "pay"
        ⟨"t", "", "OPEN", "", [⟨some "SERVICE-9", "payments"⟩], [], none, none, ""⟩ =
      some (calculateRelevance
        ⟨"t", "", "OPEN", "", [⟨some "SERVICE-9", "payments"⟩], [], none, none, ""⟩
        "SERVICE-9") ∧
    entityTag "SERVICE-9" "pay"
        ⟨"t", "", "OPEN", "", [⟨some "SERVICE-9", "payments"⟩], [], none, none, ""⟩ ≠
      some "name_match" := by
  have h := filter_by_entity_id_match_precedence
    [⟨"t", "", "OPEN", "", [⟨some "SERVICE-9", "payments"⟩], [], none, none, ""⟩]
    ⟨"t", "", "OPEN", "", [⟨some "SERVICE-9", "payments"⟩], [], none, none, ""⟩
    "SERVICE-9" "pay" [] ⟨some "SERVICE-9", "payments"⟩ [] (by decide) (by decide)
    (by intro x hx; cases hx)
  exact ⟨h.1, h.2.2.1⟩

/-- Counterexample to C1 as stated: this record satisfies both an
entity-id match (second impacted entity) and a name match (first impacted
entity), yet the filter tags it `name_match`, because the scan stops at the
first matching entity and that one matches only by name. -/
theorem filter_by_entity_id_match_precedence_cex :
    (((allEntities ⟨"t", "", "OPEN", "",
          [⟨some "OTHER", "payment"⟩, ⟨some "SERVICE-1", ""⟩], [], none, none, ""⟩).any
        (fun e => e.entityId == some "SERVICE-1")) = true) ∧
    (((allEntities ⟨"t", "", "OPEN", "",
          [⟨some "OTHER", "payment"⟩, ⟨some "SERVICE-1", ""⟩], [], none, none, ""⟩).any
        (fun e => entityNameHit "pay" e)) = true) ∧
    filterProblemsByEntity
        [⟨"t", "", "OPEN", "", [⟨some "OTHER", "payment"⟩, ⟨some "SERVICE-1", ""⟩],
          [], none, none, ""⟩] "SERVICE-1" "pay" =
      [⟨"t", "", "OPEN", "", [⟨some "OTHER", "payment"⟩, ⟨some "SERVICE-1", ""⟩],
        [], none, some "name_match", ""⟩] := by decide

/-- Claim C6: in entity-id mode a record accepted via the entity-id branch
is tagged `root_cause` when its root-cause entity's id equals the target
id, else `directly_impacted` when the target id occurs among its impacted
entities, else `indirectly_affected`; and the spec's scenario record —
root-cause entity id `SERVICE-123`, status OPEN, target id `SERVICE-123` —
is matched with relevance `root_cause` and categorized into the `critical`
bucket alone. -/
theorem entity_id_relevance_rule :
    (∀ (eid sn : String) (p : Problem),
      firstHit eid sn (allEntities p) = some .idHit →
      entityTag eid sn p = some (
        if rootCauseId p == some eid then "root_cause"
        else if p.impactedEntities.any (fun e => e.entityId == some eid) then
          "directly_impacted"
        else "indirectly_affected")) ∧
    (filterProblemsByEntity
        [⟨"t", "", "OPEN", "", [], [], some ⟨some "SERVICE-123", "x"⟩, none, ""⟩]
        "SERVICE-123" "svc" =
      [⟨"t", "", "OPEN", "", [], [], some ⟨some "SERVICE-123", "x"⟩,
        some "root_cause", ""⟩] ∧
     categorizeProblems
        (filterProblemsByEntity
          [⟨"t", "", "OPEN", "", [], [], some ⟨some "SERVICE-123", "x"⟩, none, ""⟩]
          "SERVICE-123" "svc") =
      ⟨[⟨"t", "", "OPEN", "", [], [], some ⟨some "SERVICE-123", "x"⟩,
         some "root_cause", ""⟩], [], [], []⟩) := by
  refine ⟨?_, by decide, by decide⟩
  intro eid sn p hfh
  unfold entityTag
  rw [hfh]
  rfl

/-- Witness for C6: the rule applied at the scenario record itself. -/
theorem entity_id_relevance_rule_witness :
    entityTag "SERVICE-123" "svc"
        ⟨"t", "", "OPEN", "", [], [], some ⟨some "SERVICE-123", "x"⟩, none, ""⟩ =
      some (
        if rootCauseId
            ⟨"t", "", "OPEN", "", [], [], some ⟨some "SERVICE-123", "x"⟩, none, ""⟩ ==
            some "SERVICE-123" then "root_cause"
        else if (⟨"t", "", "OPEN", "", [], [], some ⟨some "SERVICE-123", "x"⟩, none,
            ""⟩ : Problem).impactedEntities.any
            (fun e => e.entityId == some "SERVICE-123") then "directly_impacted"
        else "indirectly_affected") :=
  entity_id_relevance_rule.1 "SERVICE-123" "svc"
    ⟨"t", "", "OPEN", "", [], [], some ⟨some "SERVICE-123", "x"⟩, none, ""⟩ (by decide)

/-! ## Claim C8: the correlation pass only writes `relevance` -/

/-- Claim C8: in both filtering modes every record in the matched output is
some input record with only its `relevance` field rewritten (to a `some`
tag), and a record the pass does not accept is left completely unchanged in
the post-state of the input list — in particular it still carries no
relevance tag when it had none. -/
theorem correlation_pass_frame (problems : List Problem) (eid sn : String) :
    (∀ q ∈ filterProblemsByEntity problems eid sn,
      ∃ p ∈ problems, (∃ t, q.relevance = some t) ∧
        q = { p with relevance := q.relevance }) ∧
    (∀ q ∈ filterProblemsByName problems sn,
      ∃ p ∈ problems, (∃ t, q.relevance = some t) ∧
        q = { p with relevance := q.relevance }) ∧
    (∀ (i : Nat) (h : i < problems.length)
        (h2 : i < (afterEntityPass problems eid sn).length),
      entityTag eid sn (problems.get ⟨i, h⟩) = none →
      (afterEntityPass problems eid sn).get ⟨i, h2⟩ = problems.get ⟨i, h⟩) ∧
    (∀ (i : Nat) (h : i < problems.length)
        (h2 : i < (afterNamePass problems sn).length),
      nameTag sn (problems.get ⟨i, h⟩) = none →
      (afterNamePass problems sn).get ⟨i, h2⟩ = problems.get ⟨i, h⟩) := by
  refine ⟨?_, ?_, ?_, ?_⟩
  · intro q hq
    obtain ⟨p, hp, hpq⟩ := List.mem_filterMap.mp hq
    rcases ht : entityTag eid sn p with _ | t
    · rw [ht] at hpq
      exact absurd hpq (by simp)
    · rw [ht] at hpq
      simp only [Option.map_some'] at hpq
      cases hpq
      exact ⟨p, hp, ⟨t, rfl⟩, rfl⟩
  · intro q hq
    obtain ⟨p, hp, hpq⟩ := List.mem_filterMap.mp hq
    rcases ht : nameTag sn p with _ | t
    · rw [ht] at hpq
      exact absurd hpq (by simp)
    · rw [ht] at hpq
      simp only [Option.map_some'] at hpq
      cases hpq
      exact ⟨p, hp, ⟨t, rfl⟩, rfl⟩
  · intro i h h2 htag
    unfold afterEntityPass
    rw [List.get_map]
    rw [htag]
  · intro i h h2 htag
    unfold afterNamePass
    rw [List.get_map]
    rw [htag]

/-- Witness for C8 at a concrete one-record input accepted by neither
mode. -/
theorem correlation_pass_frame_witness :
    (afterEntityPass [⟨"quiet", "", "OPEN", "", [], [], none, none, "x"⟩] "E-1" "svc").get
        ⟨0, by decide⟩ =
      ([⟨"quiet", "", "OPEN", "", [], [], none, none, "x"⟩] :
        List Problem).get ⟨0, by decide⟩ :=
  (correlation_pass_frame [⟨"quiet", "", "OPEN", "", [], [], none, none, "x"⟩]
    "E-1" "svc").2.2.1 0 (by decide) (by decide) (by decide)

/-! ## Claim C3: the `parse` entry point -/

/-- Claim C3: `parse` produces no intent exactly when the raw input is
empty or whitespace-only; and every failure of the generative-backend tier
(timeout, malformed JSON, missing key, unsupported provider) is absorbed by
falling through to the deterministic pattern tier — on non-blank input the
caller always receives the pattern-tier intent, never an error. -/
theorem parse_blank_iff_and_ai_fallthrough (useAI : Bool) (outcome : AIOutcome)
    (input : String) :
    (parse useAI outcome input = none ↔ input.data.all isPySpace = true) ∧
    (aiFailed outcome = true → input.data.all isPySpace = false →
      parse useAI outcome input = some (parseWithPatterns (pyStrip input))) := by
  constructor
  · constructor
    · intro h
      unfold parse at h
      by_cases hs : pyStrip input = ""
      · exact (pyStrip_eq_empty_iff input).mp hs
      · rw [if_neg (by simpa using hs)] at h
        rcases hai : (if useAI then parseWithAI outcome else none) with _ | i
        · rw [hai] at h
          exact absurd h (by simp)
        · rw [hai] at h
          exact absurd h (by simp)
    · intro h
      unfold parse
      rw [if_pos (by simp [(pyStrip_eq_empty_iff input).mpr h])]
  · intro hfail hnb
    have hs : ¬ pyStrip input = "" := by
      intro hs
      rw [(pyStrip_eq_empty_iff input).mp hs] at hnb
      exact absurd hnb (by simp)
    have hai : parseWithAI outcome = none := by
      cases outcome with
      | ok i => exact absurd hfail (by simp [aiFailed])
      | timeout => rfl
      | malformedJSON => rfl
      | missingKey => rfl
      | unsupportedProvider => rfl
    unfold parse
    rw [if_neg (by simpa using hs)]
    cases useAI with
    | false => rfl
    | true => rw [if_pos rfl, hai]

/-- Witness for C3: a malformed-JSON backend failure on a non-blank input
falls through to the pattern tier. -/
theorem parse_blank_iff_and_ai_fallthrough_witness :
    parse true .malformedJSON "check ordercontroller" =
      some (parseWithPatterns (pyStrip "check ordercontroller")) :=
  (parse_blank_iff_and_ai_fallthrough true .malformedJSON "check ordercontroller").2
    (by decide) (by decide)

/-! ## Helper lemmas: the category-scoring argmax -/

theorem maxScore_cons (a : String × Nat) (l : List (String × Nat)) :
    maxScore (a :: l) = max a.2 (maxScore l) := rfl

theorem le_maxScore_of_mem :
    ∀ (l : List (String × Nat)) (kv : String × Nat), kv ∈ l → kv.2 ≤ maxScore l := by
  intro l
  induction l with
  | nil => intro kv h; cases h
  | cons a t ih =>
    intro kv h
    rw [maxScore_cons]
    rcases List.mem_cons.mp h with rfl | h
    · omega
    · have := ih kv h
      omega


theorem pyMaxFrom_cons (a b : String × Nat) (t : List (String × Nat)) :
    pyMaxFrom a (b :: t) = pyMaxFrom (if b.2 > a.2 then b else a) t := rfl

theorem find?_cons_pos (p : String × Nat → Bool) (a : String × Nat)
    (l : List (String × Nat)) (h : p a = true) : (a :: l).find? p = some a :=
  List.find?_cons_of_pos l h

theorem find?_cons_neg (p : String × Nat → Bool) (a : String × Nat)
    (l : List (String × Nat)) (h : p a = false) : (a :: l).find? p = l.find? p :=
  List.find?_cons_of_neg l (by simp [h])

/-- Python's `max(..., key=...)` over a nonempty list returns exactly the
first element attaining the maximum value. -/
theorem find?_maxScore_eq_pyMaxFrom :
    ∀ (t : List (String × Nat)) (a : String × Nat),
      (a :: t).find? (fun kv => kv.2 == maxScore (a :: t)) = some (pyMaxFrom a t) := by
  intro t
  induction t with
  | nil =>
    intro a
    have h : maxScore [a] = a.2 := by
      rw [maxScore_cons]
      simp [maxScore]
    rw [h, pyMaxFrom]
    exact find?_cons_pos _ a [] (by simp)
  | cons b t ih =>
    intro a
    by_cases hba : b.2 > a.2
    · have h1 : pyMaxFrom a (b :: t) = pyMaxFrom b t := by
        rw [pyMaxFrom_cons, if_pos hba]
      have h2 : maxScore (a :: b :: t) = maxScore (b :: t) := by
        simp only [maxScore_cons]
        omega
      have hb : b.2 ≤ maxScore (b :: t) := by
        rw [maxScore_cons]
        omega
      have hane : a.2 ≠ maxScore (b :: t) := by omega
      have ha0 : (a.2 == maxScore (b :: t)) = false := by simpa using hane
      rw [h1, h2]
      rw [find?_cons_neg (fun kv => kv.2 == maxScore (b :: t)) a (b :: t) ha0]
      exact ih b
    · have h1 : pyMaxFrom a (b :: t) = pyMaxFrom a t := by
        rw [pyMaxFrom_cons, if_neg hba]
      have h2 : maxScore (a :: b :: t) = maxScore (a :: t) := by
        simp only [maxScore_cons]
        omega
      have haM : a.2 ≤ maxScore (a :: t) := by
        rw [maxScore_cons]
        omega
      rw [h1, h2]
      by_cases ha : (a.2 == maxScore (a :: t)) = true
      · rw [find?_cons_pos (fun kv => kv.2 == maxScore (a :: t)) a (b :: t) ha]
        have hia := ih a
        rw [find?_cons_pos (fun kv => kv.2 == maxScore (a :: t)) a t ha] at hia
        exact hia
      · have ha0 : (a.2 == maxScore (a :: t)) = false := by simpa using ha
        have hane : a.2 ≠ maxScore (a :: t) := by simpa using ha0
        have hbne : b.2 ≠ maxScore (a :: t) := by omega
        have hb0 : (b.2 == maxScore (a :: t)) = false := by simpa using hbne
        rw [find?_cons_neg (fun kv => kv.2 == maxScore (a :: t)) a (b :: t) ha0,
          find?_cons_neg (fun kv => kv.2 == maxScore (a :: t)) b t hb0]
        have hia := ih a
        rw [find?_cons_neg (fun kv => kv.2 == maxScore (a :: t)) a t ha0] at hia
        exact hia

/-- Dropping the zero-score entries never changes the maximum. -/
theorem maxScore_filter_pos (l : List (String × Nat)) :
    maxScore (l.filter (fun kv => decide (0 < kv.2))) = maxScore l := by
  induction l with
  | nil => rfl
  | cons a t ih =>
    rw [List.filter_cons]
    by_cases ha : 0 < a.2
    · rw [if_pos (by simp [ha]), maxScore_cons, maxScore_cons, ih]
    · rw [if_neg (by simp [ha]), maxScore_cons, ih]
      omega

/-- Looking for a positive score, the zero-score entries can be dropped. -/
theorem find?_filter_pos (l : List (String × Nat)) (b : Nat) (hb : 0 < b) :
    (l.filter (fun kv => decide (0 < kv.2))).find? (fun kv => kv.2 == b) =
      l.find? (fun kv => kv.2 == b) := by
  induction l with
  | nil => rfl
  | cons a t ih =>
    rw [List.filter_cons]
    by_cases ha : 0 < a.2
    · rw [if_pos (by simp [ha])]
      by_cases hab : (a.2 == b) = true
      · rw [find?_cons_pos (fun kv => kv.2 == b) a
            (t.filter (fun kv => decide (0 < kv.2))) hab,
          find?_cons_pos (fun kv => kv.2 == b) a t hab]
      · have hab' : (a.2 == b) = false := by simpa using hab
        rw [find?_cons_neg (fun kv => kv.2 == b) a
            (t.filter (fun kv => decide (0 < kv.2))) hab',
          find?_cons_neg (fun kv => kv.2 == b) a t hab', ih]
    · have hane : a.2 ≠ b := by omega
      have ha0 : (a.2 == b) = false := by simpa using hane
      rw [if_neg (by simp [ha]), find?_cons_neg (fun kv => kv.2 == b) a t ha0, ih]

/-- All scores are zero exactly when the positive-score table is empty. -/
theorem filter_pos_nil_iff (l : List (String × Nat)) :
    l.filter (fun kv => decide (0 < kv.2)) = [] ↔ maxScore l = 0 := by
  induction l with
  | nil => simp [maxScore]
  | cons a t ih =>
    rw [List.filter_cons, maxScore_cons]
    by_cases ha : 0 < a.2
    · rw [if_pos (by simp [ha])]
      constructor
      · intro h
        cases h
      · intro h
        omega
    · rw [if_neg (by simp [ha]), ih]
      omega

/-- The flexible detector's pick (keep positive scores, Python `max`)
equals the spec-side pick (max of all scores, first category attaining it)
on any score table. -/
theorem pick_eq_spec (l : List (String × Nat)) :
    (match pyMaxKey (l.filter (fun kv => decide (0 < kv.2))) with
     | some intent => intent
     | none => "general_question") =
    (if maxScore l = 0 then "general_question"
     else
       match l.find? (fun kv => kv.2 == maxScore l) with
       | some kv => kv.1
       | none => "general_question") := by
  rcases hf : l.filter (fun kv => decide (0 < kv.2)) with _ | ⟨a, t⟩
  · have h0 := (filter_pos_nil_iff l).mp hf
    rw [hf, h0, if_pos rfl]
    rfl
  · have ha : a ∈ l.filter (fun kv => decide (0 < kv.2)) := by
      rw [hf]
      exact List.mem_cons_self a t
    have hapos : 0 < a.2 := by simpa using (List.mem_filter.mp ha).2
    have hle : a.2 ≤ maxScore (l.filter (fun kv => decide (0 < kv.2))) :=
      le_maxScore_of_mem _ a ha
    have hMf := maxScore_filter_pos l
    have hpos : 0 < maxScore l := by omega
    have hne0 : ¬ maxScore l = 0 := by omega
    rw [if_neg hne0, ← find?_filter_pos l (maxScore l) hpos, hf]
    have hMt : maxScore (a :: t) = maxScore l := by
      rw [← hf, hMf]
    have hfind := find?_maxScore_eq_pyMaxFrom t a
    rw [hMt] at hfind
    rw [hfind]
    rfl

/-- Claim C5: the fallback tier's category detection scores each category
by the number of trigger keywords occurring as (case-insensitive, since the
caller lower-cases) substrings of the input, returns a category with the
highest score, breaks ties by the fixed precedence order
check_abnormality (CheckHealth) > list_services > service_details >
metrics_analysis > compare_services > troubleshoot, and returns
general_question when all scores are zero — i.e., it coincides with the
spec-side detector `detectIntentTypeSpec` on every input. -/
theorem detect_intent_flex_eq_spec (text : String) :
    detectIntentTypeFlexible text = detectIntentTypeSpec text := by
  unfold detectIntentTypeFlexible detectIntentTypeSpec
  exact pick_eq_spec (intentKeywords.map (fun kv => (kv.1, scoreOf text kv.2)))

/-- Witness for C5 at a concrete tying input (`"list metrics"` scores 1 for
both list_services and metrics_analysis; precedence picks the former). -/
theorem detect_intent_flex_eq_spec_witness :
    detectIntentTypeFlexible "list metrics" = detectIntentTypeSpec "list metrics" ∧
    detectIntentTypeFlexible "list metrics" = "list_services" :=
  ⟨detect_intent_flex_eq_spec "list metrics", by decide⟩

/-! ## Helper lemmas: every timeframe the extraction cascade emits is
canonical -/

theorem takeWhile_digits_all (cs : List Char) :
    (cs.takeWhile Char.isDigit).all Char.isDigit = true := by
  rw [List.all_eq_true]
  exact fun x hx => List.mem_takeWhile_imp hx

/-- Pattern 1 only succeeds with a nonempty digit group and a unit
letter. -/
theorem tryNumUnit_sound (prev : Option Char) (cs ds : List Char) (u : Char)
    (h : tryNumUnit prev cs = some (ds, u)) :
    ds ≠ [] ∧ ds.all Char.isDigit = true ∧ isUnitChar u = true := by
  simp only [tryNumUnit] at h
  split at h
  · cases h
  · split at h
    · cases h
    · split at h
      · cases h
      · rename_i heads u' tail hrest
        split at h
        · rename_i hcond
          simp only [Option.some.injEq, Prod.mk.injEq] at h
          obtain ⟨h1, h2⟩ := h
          subst h1
          subst h2
          refine ⟨?_, takeWhile_digits_all cs, ?_⟩
          · intro hnil
            simp_all [List.isEmpty_iff]
          · simp only [Bool.and_eq_true] at hcond
            exact hcond.1
        · cases h

theorem scanNumUnit_sound :
    ∀ (cs : List Char) (prev : Option Char) (ds : List Char) (u : Char),
      scanNumUnit prev cs = some (ds, u) →
      ds ≠ [] ∧ ds.all Char.isDigit = true ∧ isUnitChar u = true := by
  intro cs
  induction cs with
  | nil =>
    intro prev ds u h
    cases h
  | cons c t ih =>
    intro prev ds u h
    simp only [scanNumUnit] at h
    split at h
    · rename_i r hr
      cases h
      exact tryNumUnit_sound prev (c :: t) ds u hr
    · exact ih (some c) ds u h

/-- Soundness: `findUnitWord` only answers letters from its table. -/
theorem findUnitWord_sound :
    ∀ (tbl : List (List Char × Char)) (x : List Char) (c : Char),
      (∀ kv ∈ tbl, isUnitChar kv.2 = true) → findUnitWord x tbl = some c →
      isUnitChar c = true := by
  intro tbl
  induction tbl with
  | nil =>
    intro x c _ h
    cases h
  | cons kv tbl ih =>
    intro x c htbl h
    rcases kv with ⟨w, letter⟩
    simp only [findUnitWord] at h
    split at h
    · split at h
      · split at h
        · cases h
          exact htbl (w, c) (List.mem_cons_self _ _)
        · cases h
      · split at h
        · cases h
          exact htbl (w, c) (List.mem_cons_self _ _)
        · cases h
    · exact ih x c (fun p hp => htbl p (List.mem_cons_of_mem _ hp)) h

/-- The shared `(\d+)\s*(minute|hour|day|week)s?\b` group only succeeds
with a nonempty digit group and a unit letter. -/
theorem tryValueUnitWord_sound (cs ds : List Char) (u : Char)
    (h : tryValueUnitWord cs = some (ds, u)) :
    ds ≠ [] ∧ ds.all Char.isDigit = true ∧ isUnitChar u = true := by
  simp only [tryValueUnitWord] at h
  split at h
  · cases h
  · split at h
    · rename_i letter hfind
      simp only [Option.some.injEq, Prod.mk.injEq] at h
      obtain ⟨h1, h2⟩ := h
      subst h1
      subst h2
      refine ⟨?_, takeWhile_digits_all cs, ?_⟩
      · intro hnil
        simp_all [List.isEmpty_iff]
      · exact findUnitWord_sound unitWordTable _ _ (by decide) hfind
    · cases h

theorem tryLastN_sound (prev : Option Char) (cs ds : List Char) (u : Char)
    (h : tryLastN prev cs = some (ds, u)) :
    ds ≠ [] ∧ ds.all Char.isDigit = true ∧ isUnitChar u = true := by
  simp only [tryLastN] at h
  split at h
  · cases h
  · split at h
    · cases h
    · split at h
      · cases h
      · exact tryValueUnitWord_sound _ ds u h

theorem scanLastN_sound :
    ∀ (cs : List Char) (prev : Option Char) (ds : List Char) (u : Char),
      scanLastN prev cs = some (ds, u) →
      ds ≠ [] ∧ ds.all Char.isDigit = true ∧ isUnitChar u = true := by
  intro cs
  induction cs with
  | nil =>
    intro prev ds u h
    cases h
  | cons c t ih =>
    intro prev ds u h
    simp only [scanLastN] at h
    split at h
    · rename_i r hr
      cases h
      exact tryLastN_sound prev (c :: t) ds u hr
    · exact ih (some c) ds u h

theorem tryInTheLastN_sound (prev : Option Char) (cs ds : List Char) (u : Char)
    (h : tryInTheLastN prev cs = some (ds, u)) :
    ds ≠ [] ∧ ds.all Char.isDigit = true ∧ isUnitChar u = true := by
  simp only [tryInTheLastN] at h
  split at h
  · cases h
  · split at h
    · cases h
    · split at h
      · cases h
      · split at h
        · cases h
        · split at h
          · cases h
          · split at h
            · cases h
            · split at h
              · cases h
              · exact tryValueUnitWord_sound _ ds u h

theorem scanInTheLastN_sound :
    ∀ (cs : List Char) (prev : Option Char) (ds : List Char) (u : Char),
      scanInTheLastN prev cs = some (ds, u) →
      ds ≠ [] ∧ ds.all Char.isDigit = true ∧ isUnitChar u = true := by
  intro cs
  induction cs with
  | nil =>
    intro prev ds u h
    cases h
  | cons c t ih =>
    intro prev ds u h
    simp only [scanInTheLastN] at h
    split at h
    · rename_i r hr
      cases h
      exact tryInTheLastN_sound prev (c :: t) ds u hr
    · exact ih (some c) ds u h

/-- A string assembled as digits followed by a unit letter matches the
canonical grammar (lower-casing fixes both digit and unit characters). -/
theorem matchTimeframe_build (ds : List Char) (u : Char) (hne : ds ≠ [])
    (hdig : ds.all Char.isDigit = true) (hu : isUnitChar u = true) :
    matchTimeframe ⟨ds ++ [u]⟩ = some (digitsToNat ds, u) := by
  apply matchTimeframe_of_decomp _ ds u _ hne hdig hu
  show (ds ++ [u]).map pyLowerChar = ds ++ [u]
  rw [List.map_append]
  have hfix : ∀ l : List Char, l.all Char.isDigit = true → l.map pyLowerChar = l := by
    intro l hl
    induction l with
    | nil => rfl
    | cons c t ih =>
      simp only [List.all_cons, Bool.and_eq_true] at hl
      simp [pyLowerChar_digit c hl.1, ih hl.2]
  rw [hfix ds hdig]
  simp [pyLowerChar_unit u hu]

/-- A canonical timeframe never makes `parse_timeframe` raise. -/
theorem parseOk_of_match (s : String) (now : Int) (v : Nat × Char)
    (h : matchTimeframe s = some v) :
    ∃ r, parseTimeframe s now = Except.ok r := by
  unfold parseTimeframe
  rw [h]
  exact ⟨_, rfl⟩

/-- Claim C10: every timeframe string the fallback tier's extraction
cascade produces matches the canonical grammar `^[0-9]+[mhdw]$` — each
regex branch emits its digit group directly followed by one unit letter,
each keyword-map value and the default `"2h"` are canonical — and
consequently `parse_timeframe` never fails on an extracted timeframe. -/
theorem extract_timeframe_always_canonical (text : String) (now : Int) :
    (matchTimeframe (extractTimeframeFlexible text)).isSome = true ∧
    ∃ r, parseTimeframe (extractTimeframeFlexible text) now = Except.ok r := by
  have key : (matchTimeframe (extractTimeframeFlexible text)).isSome = true := by
    unfold extractTimeframeFlexible
    rcases h1 : scanNumUnit none text.data with _ | ⟨ds, u⟩
    · rcases h2 : scanLastN none text.data with _ | ⟨ds, u⟩
      · rcases h3 : scanInTheLastN none text.data with _ | ⟨ds, u⟩
        · rcases h4 : timeKeywords.find? (fun kv => strContains text kv.1) with _ | kv
          · simp only [h1, h2, h3, h4]
            decide
          · have hmem := List.mem_of_find?_eq_some h4
            have hall : ∀ p ∈ timeKeywords, (matchTimeframe p.2).isSome = true := by
              decide
            simp only [h1, h2, h3, h4]
            exact hall kv hmem
        · obtain ⟨hne, hdig, hu⟩ := scanInTheLastN_sound text.data none ds u h3
          simp only [h1, h2, h3]
          rw [matchTimeframe_build ds u hne hdig hu]
          rfl
      · obtain ⟨hne, hdig, hu⟩ := scanLastN_sound text.data none ds u h2
        simp only [h1, h2]
        rw [matchTimeframe_build ds u hne hdig hu]
        rfl
    · obtain ⟨hne, hdig, hu⟩ := scanNumUnit_sound text.data none ds u h1
      simp only [h1]
      rw [matchTimeframe_build ds u hne hdig hu]
      rfl
  refine ⟨key, ?_⟩
  rcases hm : matchTimeframe (extractTimeframeFlexible text) with _ | v
  · rw [hm] at key
    cases key
  · exact parseOk_of_match _ now v hm

/-- Witness for C10 at a concrete conversational input. -/
theorem extract_timeframe_always_canonical_witness :
    ∃ r, parseTimeframe (extractTimeframeFlexible "show me the last 45 minutes") 0 =
      Except.ok r :=
  (extract_timeframe_always_canonical "show me the last 45 minutes" 0).2
